import Mathlib

/-!
Shallow embedding of the PHONX210 repository's two source files:
`ai_call_logger.py` (per-caller durable log files) and
`apiChatCompletion.py` (async chat-completion wrapper with three
append-only pipeline sinks).  Python strings are modelled as lists of
code points (`PyStr`), and the Python string primitives used by the
source are modelled by small explicit functions below.
-/

/-- A Python string, as its sequence of code points. -/
abbrev PyStr := List Char

/-- Models Python `s.replace(c, '')` for a single-character pattern:
every occurrence of the character is removed. -/
def pyRemoveChar (c : Char) (s : PyStr) : PyStr :=
  s.filter (fun d => d ≠ c)

/-- Models Python `s.replace(a, b)` for single-character pattern and
replacement: every occurrence of `a` becomes `b`. -/
def pyMapChar (a b : Char) (s : PyStr) : PyStr :=
  s.map (fun d => if d = a then b else d)

/-- Models Python `str.strip()` (whitespace removed from both ends). -/
def pyStrip (s : PyStr) : PyStr :=
  ((s.dropWhile Char.isWhitespace).reverse.dropWhile Char.isWhitespace).reverse

/-- Models Python `sep.join(parts)`. -/
def pyJoin (sep : PyStr) (parts : List PyStr) : PyStr :=
  List.intercalate sep parts

/-- Models Python `f"{b}"` on a bool (`True` / `False`). -/
def pyBool (b : Bool) : PyStr :=
  if b then "True".data else "False".data

/-! ## Wall-clock timestamps

`datetime.now().strftime("%Y-%m-%d %H:%M:%S.%f")[:-3]` formats local
time with zero-padded fixed-width decimal fields and then drops the
last three characters, leaving millisecond precision.  A wall-clock
reading is a parameter of every operation that calls `datetime.now()`.
-/

structure PyDateTime where
  year : Nat
  month : Nat
  day : Nat
  hour : Nat
  minute : Nat
  second : Nat
  micro : Nat
deriving DecidableEq

/-- The decimal digit character for `n % 10`. -/
def digitChar10 (n : Nat) : Char := Char.ofNat (48 + n % 10)

/-- Models a zero-padded fixed-width decimal field of `strftime`
(`%02d`, `%04d`, `%06d`): exactly `w` digit characters, the decimal
digits of `n` zero-padded on the left.  Agrees with `strftime` whenever
`n < 10 ^ w`, which holds for every field of a Python `datetime`. -/
def padNum : Nat → Nat → PyStr
  | 0, _ => []
  | w + 1, n => padNum w (n / 10) ++ [digitChar10 n]

/-- `strftime("%Y-%m-%d %H:%M:%S.%f")` on a datetime value. -/
def strftimeFull (t : PyDateTime) : PyStr :=
  padNum 4 t.year ++ "-".data ++ padNum 2 t.month ++ "-".data ++ padNum 2 t.day
    ++ " ".data ++ padNum 2 t.hour ++ ":".data ++ padNum 2 t.minute
    ++ ":".data ++ padNum 2 t.second ++ ".".data ++ padNum 6 t.micro

/-- `strftime("%Y-%m-%d %H:%M:%S.%f")[:-3]`: millisecond-precision
timestamp text, as produced in `append_log` and `_recreate_log_entry`. -/
def timestampText (t : PyDateTime) : PyStr :=
  (strftimeFull t).dropLast.dropLast.dropLast

/-- The timestamped log line `f"[{timestamp}] {log_data}\n"`. -/
def timestampedLine (t : PyDateTime) (log_data : PyStr) : PyStr :=
  "[".data ++ timestampText t ++ "] ".data ++ log_data ++ "\n".data

/-! ### Basic facts about the timestamp text -/

theorem padNum_length (w n : Nat) : (padNum w n).length = w := by
  induction w generalizing n with
  | zero => rfl
  | succ w ih => simp [padNum, ih]

theorem padNum_succ_concat (w n : Nat) :
    padNum (w + 1) n = padNum w (n / 10) ++ [digitChar10 n] := rfl

theorem dropLast_append_concat (A B : List Char) (c : Char) :
    (A ++ (B ++ [c])).dropLast = A ++ B := by
  rw [← List.append_assoc, List.dropLast_concat]

theorem timestampText_eq (t : PyDateTime) :
    timestampText t =
      padNum 4 t.year ++ "-".data ++ padNum 2 t.month ++ "-".data ++ padNum 2 t.day
        ++ " ".data ++ padNum 2 t.hour ++ ":".data ++ padNum 2 t.minute
        ++ ":".data ++ padNum 2 t.second ++ ".".data ++ padNum 3 (t.micro / 1000) := by
  unfold timestampText strftimeFull
  rw [show padNum 6 t.micro = padNum 5 (t.micro / 10) ++ [digitChar10 t.micro] from rfl,
    dropLast_append_concat]
  rw [show padNum 5 (t.micro / 10)
      = padNum 4 (t.micro / 10 / 10) ++ [digitChar10 (t.micro / 10)] from rfl,
    dropLast_append_concat]
  rw [show padNum 4 (t.micro / 10 / 10)
      = padNum 3 (t.micro / 10 / 10 / 10) ++ [digitChar10 (t.micro / 10 / 10)] from rfl,
    dropLast_append_concat]
  have : t.micro / 10 / 10 / 10 = t.micro / 1000 := by
    simp [Nat.div_div_eq_div_mul]
  rw [this]

theorem timestampText_length (t : PyDateTime) : (timestampText t).length = 23 := by
  rw [timestampText_eq]
  simp [padNum_length]

/-! ## Filesystem model

The logger interacts with a POSIX filesystem: `open(..., 'a')`,
`write`, `flush`, `os.fsync`, `os.path.exists`, `os.path.getsize`, and
external deletion of a file.  Directory entries map a path to an inode;
an open handle references the inode, so a handle stays writable after
the path is unlinked (the write then lands on the orphaned inode and is
invisible at the path).  Each `open` returns a fresh handle value. -/

def alistFind {α β : Type} [DecidableEq α] : List (α × β) → α → Option β
  | [], _ => none
  | (k, v) :: rest, key => if k = key then some v else alistFind rest key

def alistSet {α β : Type} [DecidableEq α] : List (α × β) → α → β → List (α × β)
  | [], key, v => [(key, v)]
  | (k, w) :: rest, key, v =>
    if k = key then (key, v) :: rest else (k, w) :: alistSet rest key v

def alistRemove {α β : Type} [DecidableEq α] : List (α × β) → α → List (α × β)
  | [], _ => []
  | (k, w) :: rest, key =>
    if k = key then alistRemove rest key else (k, w) :: alistRemove rest key

structure FileHandle where
  hid : Nat
  inode : Nat
deriving DecidableEq

structure FSState where
  dirEntries : List (PyStr × Nat)
  inodeData : List (Nat × PyStr)
  nextInode : Nat
  nextHid : Nat
deriving DecidableEq

def emptyFS : FSState := { dirEntries := [], inodeData := [], nextInode := 0, nextHid := 0 }

/-- `open(path, 'a')`: reuse the inode at the path, or create an empty
file there; either way a fresh handle positioned at the end. -/
def fsOpenAppend (fs : FSState) (path : PyStr) : FSState × FileHandle :=
  match alistFind fs.dirEntries path with
  | some i => ({ fs with nextHid := fs.nextHid + 1 }, { hid := fs.nextHid, inode := i })
  | none =>
    ({ dirEntries := alistSet fs.dirEntries path fs.nextInode,
       inodeData := alistSet fs.inodeData fs.nextInode [],
       nextInode := fs.nextInode + 1,
       nextHid := fs.nextHid + 1 },
     { hid := fs.nextHid, inode := fs.nextInode })

/-- `handle.write(s)`: append to the handle's inode. -/
def fsWrite (fs : FSState) (h : FileHandle) (s : PyStr) : FSState :=
  match alistFind fs.inodeData h.inode with
  | some content => { fs with inodeData := alistSet fs.inodeData h.inode (content ++ s) }
  | none => fs

/-- `os.path.exists(path)`. -/
def fsExists (fs : FSState) (path : PyStr) : Bool :=
  (alistFind fs.dirEntries path).isSome

/-- The content visible at a path, if any. -/
def fsContent (fs : FSState) (path : PyStr) : Option PyStr :=
  (alistFind fs.dirEntries path).bind (alistFind fs.inodeData)

/-- `os.path.getsize(path)` (code-point count of the content; the
files written here are line-oriented text). -/
def fsGetSize (fs : FSState) (path : PyStr) : Nat :=
  ((fsContent fs path).getD []).length

/-- External deletion of the file at a path: the directory entry goes
away, the inode survives for any open handle. -/
def fsUnlink (fs : FSState) (path : PyStr) : FSState :=
  { fs with dirEntries := alistRemove fs.dirEntries path }

/-! ### Fault injection

Each primitive the logger calls can raise in Python.  A `FaultSpec`
says which primitives raise; `noFaults` is normal operation.  A raising
operation leaves the filesystem unchanged and carries the state at the
raise point, so a caught exception observes any partial effects. -/

structure FaultSpec where
  openFails : Bool
  writeFails : Bool
  flushFails : Bool
  fsyncFails : Bool
  makedirsFails : Bool
deriving DecidableEq

def noFaults : FaultSpec :=
  { openFails := false, writeFails := false, flushFails := false,
    fsyncFails := false, makedirsFails := false }

/-- A Python exception, as its message text paired with the filesystem
state at the raise point. -/
abbrev PyRaise := PyStr × FSState

def fsOpenAppendE (fl : FaultSpec) (fs : FSState) (path : PyStr) :
    Except PyRaise (FSState × FileHandle) :=
  if fl.openFails then .error ("open failed".data, fs) else .ok (fsOpenAppend fs path)

def fsWriteE (fl : FaultSpec) (fs : FSState) (h : FileHandle) (s : PyStr) :
    Except PyRaise FSState :=
  if fl.writeFails then .error ("write failed".data, fs) else .ok (fsWrite fs h s)

/-- `handle.flush()`: writes are modelled as immediate, so a successful
flush does not change the state. -/
def fsFlushE (fl : FaultSpec) (fs : FSState) (_h : FileHandle) : Except PyRaise FSState :=
  if fl.flushFails then .error ("flush failed".data, fs) else .ok fs

/-- `os.fsync(fd)`: durability is not part of the state model, so a
successful sync does not change the state. -/
def fsFsyncE (fl : FaultSpec) (fs : FSState) (_h : FileHandle) : Except PyRaise FSState :=
  if fl.fsyncFails then .error ("fsync failed".data, fs) else .ok fs

/-- `os.makedirs(..., exist_ok=True)`: directories are not tracked, so
a successful call does not change the state. -/
def fsMakedirsE (fl : FaultSpec) (fs : FSState) : Except PyRaise FSState :=
  if fl.makedirsFails then .error ("makedirs failed".data, fs) else .ok fs

/-! ## `ai_call_logger.py` : class CallLogger

`LoggerState` is the instance state: the log directory and the
`file_handles` cache, a dict keyed by the caller number string exactly
as passed in.  Diagnostic `print` output is modelled by `Diag` markers
so that the fallback paths the source takes are observable. -/

structure LoggerState where
  log_directory : PyStr
  file_handles : List (PyStr × FileHandle)
deriving DecidableEq

inductive Diag
  | appendFailed
  | recreateDone
  | recreateFailed
  | warnEmptyFile
  | warnMissingFile
  | warnVerifyError
  | syncLogFailed
deriving DecidableEq

/-- `_get_log_filename`: strip `+`, `-`, space, `(`, `)` from the
caller number (five chained `str.replace(c, '')` calls) and join the
directory with `<safe_number>.txt`. -/
def safe_number (caller_number : PyStr) : PyStr :=
  pyRemoveChar ')' (pyRemoveChar '(' (pyRemoveChar ' '
    (pyRemoveChar '-' (pyRemoveChar '+' caller_number))))

def get_log_filename (log_directory caller_number : PyStr) : PyStr :=
  log_directory ++ "/".data ++ (safe_number caller_number ++ ".txt".data)

/-- `_get_file_handle`: return the cached handle for the caller number
if present, otherwise open the file in append mode and cache the new
handle under the caller number. -/
def get_file_handleE (fl : FaultSpec) (st : LoggerState) (fs : FSState)
    (caller_number : PyStr) : Except PyRaise (LoggerState × FSState × FileHandle) :=
  match alistFind st.file_handles caller_number with
  | some h => .ok (st, fs, h)
  | none =>
    match fsOpenAppendE fl fs (get_log_filename st.log_directory caller_number) with
    | .ok (fs1, h) =>
      .ok ({ st with file_handles := alistSet st.file_handles caller_number h }, fs1, h)
    | .error e => .error e

/-- `_recreate_log_entry`: bypass the cache — ensure the directory,
open the file directly in append mode, write a fresh timestamped line
for the message, flush and fsync, close.  Its own `try/except` catches
any failure and only reports it, so this function never raises. -/
def recreate_log_entry (fl : FaultSpec) (st : LoggerState) (fs : FSState)
    (t : PyDateTime) (caller_number message : PyStr) : FSState × List Diag :=
  let filename := get_log_filename st.log_directory caller_number
  let log_entry := timestampedLine t message
  match (do
    let fs0 ← fsMakedirsE fl fs
    let (fs1, h) ← fsOpenAppendE fl fs0 filename
    let fs2 ← fsWriteE fl fs1 h log_entry
    let fs3 ← fsFlushE fl fs2 h
    let fs4 ← fsFsyncE fl fs3 h
    pure fs4 : Except PyRaise FSState) with
  | .ok fs' => (fs', [Diag.recreateDone])
  | .error (_, fs') => (fs', [Diag.recreateFailed])

/-- The body of `append_log`'s `try` block: obtain the handle, format
the line (timestamped when requested), write, flush, and fsync — the
fsync inside its own `try/except: pass`, so an fsync failure is
swallowed there and never reaches the outer handler. -/
def append_log_body (fl : FaultSpec) (st : LoggerState) (fs : FSState)
    (t : PyDateTime) (caller_number log_data : PyStr) (include_timestamp : Bool) :
    Except PyRaise (LoggerState × FSState) := do
  let (st1, fs1, h) ← get_file_handleE fl st fs caller_number
  let log_entry :=
    if include_timestamp then timestampedLine t log_data else log_data ++ "\n".data
  let fs2 ← fsWriteE fl fs1 h log_entry
  let fs3 ← fsFlushE fl fs2 h
  let fs4 := match fsFsyncE fl fs3 h with
    | .ok fs4 => fs4
    | .error (_, fs4) => fs4
  pure (st1, fs4)

/-- `append_log`: run the body under `try`; on any exception, report
to stderr and route the same `log_data` to `_recreate_log_entry`,
itself under a bare `try/except: pass`.  The result type keeps the
possibility of a raise so that "never raises" is a statement, not a
typing accident. -/
def append_log (fl : FaultSpec) (st : LoggerState) (fs : FSState)
    (t : PyDateTime) (caller_number log_data : PyStr) (include_timestamp : Bool) :
    Except PyRaise (LoggerState × FSState × List Diag) :=
  match append_log_body fl st fs t caller_number log_data include_timestamp with
  | .ok (st1, fs') => .ok (st1, fs', [])
  | .error (_, fsE) =>
    let (fs', ds) := recreate_log_entry fl st fsE t caller_number log_data
    .ok (st, fs', Diag.appendFailed :: ds)

/-- `_verify_log_written`: inside `try`, force-flush and fsync the
cached handle if one exists, then check the file at the path: present
and non-empty reports success untouched; missing or empty triggers
`_recreate_log_entry`.  The `except` branch also falls back to
recreation (which itself cannot raise), so the function is total. -/
def verify_log_written (fl : FaultSpec) (st : LoggerState) (fs : FSState)
    (t : PyDateTime) (caller_number message : PyStr) : FSState × Bool × List Diag :=
  let filename := get_log_filename st.log_directory caller_number
  match (do
    match alistFind st.file_handles caller_number with
    | some h =>
      let fs1 ← fsFlushE fl fs h
      fsFsyncE fl fs1 h
    | none => pure fs : Except PyRaise FSState) with
  | .error (_, fsE) =>
    let (fs', ds) := recreate_log_entry fl st fsE t caller_number message
    (fs', true, Diag.warnVerifyError :: ds)
  | .ok fs1 =>
    if fsExists fs1 filename then
      if 0 < fsGetSize fs1 filename then
        (fs1, true, [])
      else
        let (fs', ds) := recreate_log_entry fl st fs1 t caller_number message
        (fs', true, Diag.warnEmptyFile :: ds)
    else
      let (fs', ds) := recreate_log_entry fl st fs1 t caller_number message
      (fs', true, Diag.warnMissingFile :: ds)

/-- `log_event`: prefix the message with the elapsed-time annotation
`f"[{elapsed:8.4f}s] "` when a start time was supplied (the rendered
`%8.4f` digits are the `elapsed` parameter — float formatting stays
outside the model), then `append_log` with a timestamp followed by
`_verify_log_written(caller_number, message)`, both under a `try`
whose `except` only reports.  Note the bare `message` — not the
annotated `log_data` — is what verification (and hence recreation)
receives.  `tA` and `tV` are the wall-clock readings of the append and
the verify/recreate steps. -/
def log_event_data (message : PyStr) (elapsed : Option PyStr) : PyStr :=
  match elapsed with
  | some es => "[".data ++ es ++ "s] ".data ++ message
  | none => message

def log_event (fl : FaultSpec) (st : LoggerState) (fs : FSState)
    (tA tV : PyDateTime) (caller_number message : PyStr) (elapsed : Option PyStr) :
    LoggerState × FSState × List Diag :=
  let log_data := log_event_data message elapsed
  match append_log fl st fs tA caller_number log_data true with
  | .ok (st1, fs1, d1) =>
    let (fs2, _ok, d2) := verify_log_written fl st1 fs1 tV caller_number message
    (st1, fs2, d1 ++ d2)
  | .error _ => (st, fs, [Diag.syncLogFailed])

/-! ## `apiChatCompletion.py`

The three pipeline sinks (`_append_turn_log`, `_append_chunk_log`,
`_append_success_log`) and the `AsyncChatCompletion` methods.  The
remote service is an oracle parameter: a non-streaming call either
returns a completion or raises; a streaming call either fails to
establish, or delivers a list of fragments and then either exhausts or
raises mid-iteration.  Every sink invocation from the calling path is
recorded as an effect tagged with how it was dispatched: `awaited`
(`await f(...)`) or `scheduled` (`asyncio.create_task(f(...))`). -/

structure ChatMessage where
  role : Option PyStr
  content : Option PyStr
deriving DecidableEq

structure ChoiceMessage where
  content : PyStr
deriving DecidableEq

structure Choice where
  message : Option ChoiceMessage
deriving DecidableEq

structure Completion where
  choices : List Choice
deriving DecidableEq

structure TurnRecord where
  model : PyStr
  streaming : Bool
  user_phone_number : PyStr
  messages : List ChatMessage
  response : PyStr
  response_chars : Nat
deriving DecidableEq

inductive Dispatch
  | awaited
  | scheduled
deriving DecidableEq

inductive PipeEffect
  | successLine (line : PyStr) (d : Dispatch)
  | chunkRecord (seq : Nat) (text : PyStr) (d : Dispatch)
  | turnRecord (r : TurnRecord) (d : Dispatch)
deriving DecidableEq

/-- Per-caller progress lines sent through the `CallLogger`
collaborator, abstracted to markers (their f-string text carries
timings that are irrelevant to every claim). -/
inductive CallEvent
  | startingCompletion
  | temperatureInfo
  | completionDone
  | responseGenerated (n : Nat)
  | completionFailed
  | startingStream
  | streamCreateFailed
  | streamDone
  | streamFailed
deriving DecidableEq

/-- The row built by `_append_success_log` for one outbound message:
`f"{role}:{safe_content}"` with `role = (m.get("role") or "").strip()`
and `safe_content` the content with newlines and carriage returns
collapsed to spaces and then stripped. -/
def success_row_part (m : ChatMessage) : PyStr :=
  let role := pyStrip (m.role.getD [])
  let content := m.content.getD []
  let safe_content := pyStrip (pyMapChar '\r' ' ' (pyMapChar '\n' ' ' content))
  role ++ ":".data ++ safe_content

/-- The flattened rendering of the outbound message list in a
success-log line: parts joined by `" || "`, and if the result exceeds
1000 characters, its first 1000 characters with `"..."` appended. -/
def build_success_row (messages : List ChatMessage) : PyStr :=
  if messages.isEmpty then [] else
    let row := pyJoin " || ".data (messages.map success_row_part)
    if 1000 < row.length then row.take 1000 ++ "...".data else row

/-- The full success-log line
`f"[{ts}] HTTP 200 | model={model} | user={user or ''} | streaming={bool(streaming)} -> {row}\n"`
(`ts` is the rendered UTC ISO timestamp, a parameter). -/
def success_log_line (ts : PyStr) (messages : List ChatMessage) (streaming : Bool)
    (model user : PyStr) : PyStr :=
  "[".data ++ ts ++ "] HTTP 200 | model=".data ++ model ++ " | user=".data ++ user
    ++ " | streaming=".data ++ pyBool streaming ++ " -> ".data
    ++ build_success_row messages ++ "\n".data

/-- Outcome of the remote non-streaming call
`client.chat.completions.create(...)`. -/
abbrev RemoteOutcome := Except PyStr Completion

/-- Outcome of a streaming call: either the stream cannot even be
established (`create` raises), or it delivers `frags` — each an
optional `chunk.choices[0].delta.content` — and afterwards either
exhausts normally (`iterErr = none`) or raises (`iterErr = some e`). -/
inductive StreamBehavior
  | establishFail (e : PyStr)
  | delivered (frags : List (Option PyStr)) (iterErr : Option PyStr)
deriving DecidableEq

structure CallOutcome (α : Type) where
  result : Except PyStr α
  effects : List PipeEffect
  events : List CallEvent

/-- `create_completion`: log two progress events, call the remote
service; on success `await _append_success_log(..., streaming=False)`
and log completion events; on a raise, log the failure and re-raise. -/
def create_completion (r : RemoteOutcome) (ts : PyStr) (messages : List ChatMessage)
    (model user : PyStr) : CallOutcome Completion :=
  match r with
  | .ok completion =>
    let respEvents := match completion.choices with
      | [] => []
      | ch :: _ => match ch.message with
        | some m => [CallEvent.responseGenerated m.content.length]
        | none => []
    { result := .ok completion,
      effects := [.successLine (success_log_line ts messages false model user) .awaited],
      events := [.startingCompletion, .temperatureInfo, .completionDone] ++ respEvents }
  | .error e =>
    { result := .error e,
      effects := [],
      events := [.startingCompletion, .temperatureInfo, .completionFailed] }

/-- `get_response_content`: `create_completion`, then read
`completion.choices[0].message.content` (an index or attribute error
there propagates) and schedule `_append_turn_log` as a background
task. -/
def get_response_content (r : RemoteOutcome) (ts : PyStr) (messages : List ChatMessage)
    (model user : PyStr) : CallOutcome PyStr :=
  let c := create_completion r ts messages model user
  match c.result with
  | .error e => { result := .error e, effects := c.effects, events := c.events }
  | .ok completion =>
    match completion.choices with
    | [] => { result := .error "IndexError".data, effects := c.effects, events := c.events }
    | ch :: _ =>
      match ch.message with
      | none =>
        { result := .error "AttributeError".data, effects := c.effects, events := c.events }
      | some m =>
        { result := .ok m.content,
          effects := c.effects ++
            [.turnRecord
              { model := model, streaming := false, user_phone_number := user,
                messages := messages, response := m.content,
                response_chars := m.content.length } .scheduled],
          events := c.events }

/-- The terminal fragment yielded when a streaming call fails. -/
def errorSentinel : PyStr := "An error occurred while generating the response.".data

/-- The `async for chunk in stream` loop body of `get_response_stream`:
a fragment with truthy (non-empty, non-absent) text is accumulated,
dispatched to the chunk log as a background task with the current
sequence number, the number incremented, and the text yielded; other
fragments are skipped.  Returns (yielded texts, chunk-log effects,
final accumulator). -/
def stream_loop (seq : Nat) (full : PyStr) :
    List (Option PyStr) → List PyStr × List PipeEffect × PyStr
  | [] => ([], [], full)
  | content :: rest =>
    match content with
    | some s =>
      if s.isEmpty then stream_loop seq full rest
      else
        let (ys, effs, f) := stream_loop (seq + 1) (full ++ s) rest
        (s :: ys, PipeEffect.chunkRecord seq s Dispatch.scheduled :: effs, f)
    | none => stream_loop seq full rest

structure StreamOutcome where
  yields : List PyStr
  effects : List PipeEffect
  events : List CallEvent
deriving DecidableEq

/-- `get_response_stream`: establish the stream (a raise there is
caught by the same `except` as iteration errors); on establishment,
`await _append_success_log(..., streaming=True)`, run the fragment
loop, and on normal exhaustion schedule one turn record with the
accumulated text; on any raise inside the `try` — establishment
included — log the failure and yield the single error sentinel. -/
def get_response_stream (b : StreamBehavior) (ts : PyStr) (messages : List ChatMessage)
    (model user : PyStr) : StreamOutcome :=
  match b with
  | .establishFail _e =>
    { yields := [errorSentinel],
      effects := [],
      events := [.startingStream, .streamCreateFailed, .streamFailed] }
  | .delivered frags iterErr =>
    let succ := PipeEffect.successLine (success_log_line ts messages true model user)
      Dispatch.awaited
    let (ys, chunkEffs, full) := stream_loop 0 [] frags
    match iterErr with
    | none =>
      { yields := ys,
        effects := succ :: chunkEffs ++
          [.turnRecord
            { model := model, streaming := true, user_phone_number := user,
              messages := messages, response := full,
              response_chars := full.length } .scheduled],
        events := [.startingStream, .streamDone] }
    | some _e =>
      { yields := ys ++ [errorSentinel],
        effects := succ :: chunkEffs,
        events := [.startingStream, .streamFailed] }

/-- The success-log lines among a list of pipeline effects. -/
def successLines (effs : List PipeEffect) : List PyStr :=
  effs.filterMap fun e => match e with
    | .successLine l _ => some l
    | _ => none

/-- The (sequence number, text) pairs dispatched to the chunk log. -/
def chunkPairs (effs : List PipeEffect) : List (Nat × PyStr) :=
  effs.filterMap fun e => match e with
    | .chunkRecord seq s _ => some (seq, s)
    | _ => none

/-- The turn records dispatched to the turn log. -/
def turnRecords (effs : List PipeEffect) : List TurnRecord :=
  effs.filterMap fun e => match e with
    | .turnRecord r _ => some r
    | _ => none

/-- The dispatch mode of each pipeline-sink invocation. -/
def dispatchOf (e : PipeEffect) : Dispatch :=
  match e with
  | .successLine _ d => d
  | .chunkRecord _ _ d => d
  | .turnRecord _ d => d

/-- The sink of a pipeline-sink invocation: 0 turn, 1 chunk, 2 success. -/
def sinkOf (e : PipeEffect) : Nat :=
  match e with
  | .turnRecord _ _ => 0
  | .chunkRecord _ _ _ => 1
  | .successLine _ _ => 2

/-! ## Helper lemmas -/

theorem alistFind_set_self {α β : Type} [DecidableEq α] (l : List (α × β)) (k : α) (v : β) :
    alistFind (alistSet l k v) k = some v := by
  induction l with
  | nil => simp [alistSet, alistFind]
  | cons p rest ih =>
    obtain ⟨k', v'⟩ := p
    by_cases h : k' = k
    · simp [alistSet, h, alistFind]
    · simp [alistSet, h, alistFind, ih]

theorem alistFind_set_other {α β : Type} [DecidableEq α] (l : List (α × β)) (k k' : α)
    (v : β) (hne : k ≠ k') : alistFind (alistSet l k v) k' = alistFind l k' := by
  induction l with
  | nil => simp [alistSet, alistFind, hne]
  | cons p rest ih =>
    obtain ⟨ka, va⟩ := p
    by_cases h : ka = k
    · subst h
      simp [alistSet, alistFind, hne]
    · simp [alistSet, h, alistFind, ih]

theorem alistFind_remove_self {α β : Type} [DecidableEq α] (l : List (α × β)) (k : α) :
    alistFind (alistRemove l k) k = none := by
  induction l with
  | nil => simp [alistRemove, alistFind]
  | cons p rest ih =>
    obtain ⟨ka, va⟩ := p
    by_cases h : ka = k
    · simp [alistRemove, h, ih]
    · simp [alistRemove, h, alistFind, ih]

theorem alistFind_remove_other {α β : Type} [DecidableEq α] (l : List (α × β)) (k k' : α)
    (hne : k ≠ k') : alistFind (alistRemove l k) k' = alistFind l k' := by
  induction l with
  | nil => simp [alistRemove]
  | cons p rest ih =>
    obtain ⟨ka, va⟩ := p
    by_cases h : ka = k
    · subst h
      simp [alistRemove, alistFind, hne, ih]
    · simp [alistRemove, h, alistFind, ih]

/-- The texts of the truthy fragments, in order: exactly those
fragments that are present and non-empty. -/
def nonEmptyTexts (frags : List (Option PyStr)) : List PyStr :=
  frags.filterMap fun o => match o with
    | some s => if s.isEmpty then none else some s
    | none => none

/-- Characterization of the streaming loop: it yields the truthy
fragment texts unchanged, numbers them consecutively from the starting
sequence number, and appends their concatenation to the accumulator. -/
theorem stream_loop_eq (frags : List (Option PyStr)) (seq : Nat) (full : PyStr) :
    stream_loop seq full frags =
      (nonEmptyTexts frags,
       (List.enumFrom seq (nonEmptyTexts frags)).map
         (fun p => PipeEffect.chunkRecord p.1 p.2 Dispatch.scheduled),
       full ++ (nonEmptyTexts frags).flatten) := by
  induction frags generalizing seq full with
  | nil => simp [stream_loop, nonEmptyTexts]
  | cons o rest ih =>
    cases o with
    | none =>
      have h1 : stream_loop seq full (none :: rest) = stream_loop seq full rest := rfl
      have h2 : nonEmptyTexts (none :: rest) = nonEmptyTexts rest := by
        simp [nonEmptyTexts, List.filterMap_cons]
      rw [h1, h2]
      exact ih seq full
    | some s =>
      by_cases hs : s = []
      · subst hs
        have h1 : stream_loop seq full (some [] :: rest) = stream_loop seq full rest := by
          simp [stream_loop]
        have h2 : nonEmptyTexts (some [] :: rest) = nonEmptyTexts rest := by
          simp [nonEmptyTexts, List.filterMap_cons]
        rw [h1, h2]
        exact ih seq full
      · have hne : s.isEmpty = false := by simp [List.isEmpty_iff, hs]
        have h2 : nonEmptyTexts (some s :: rest) = s :: nonEmptyTexts rest := by
          simp [nonEmptyTexts, List.filterMap_cons, hne, hs]
        simp only [stream_loop, hne, Bool.false_eq_true, if_false, h2]
        rw [ih (seq + 1) (full ++ s)]
        simp [List.enumFrom]

/-! ## A positional matcher for the log-line pattern

The spec's scenario asks that a log line match the regular expression
`\[\d{4}-\d{2}-\d{2} \d{2}:\d{2}:\d{2}\.\d{3}\] hello`.  The pattern is
a list of character predicates matched positionally against the whole
line. -/

def isDigitChar (c : Char) : Bool := 48 ≤ c.toNat && c.toNat ≤ 57

def chEq (a : Char) : Char → Bool := fun c => c == a

def matchesPattern : List (Char → Bool) → List Char → Bool
  | [], [] => true
  | p :: ps, c :: cs => p c && matchesPattern ps cs
  | _, _ => false

/-- The anchored pattern
`\[\d{4}-\d{2}-\d{2} \d{2}:\d{2}:\d{2}\.\d{3}\] <msg>`. -/
def tsLinePattern (msg : PyStr) : List (Char → Bool) :=
  [chEq '['] ++ List.replicate 4 isDigitChar ++ [chEq '-'] ++ List.replicate 2 isDigitChar
    ++ [chEq '-'] ++ List.replicate 2 isDigitChar ++ [chEq ' ']
    ++ List.replicate 2 isDigitChar ++ [chEq ':'] ++ List.replicate 2 isDigitChar
    ++ [chEq ':'] ++ List.replicate 2 isDigitChar ++ [chEq '.']
    ++ List.replicate 3 isDigitChar ++ [chEq ']'] ++ [chEq ' '] ++ msg.map chEq

theorem matchesPattern_append {ps qs : List (Char → Bool)} {cs ds : List Char}
    (h1 : matchesPattern ps cs = true) (h2 : matchesPattern qs ds = true) :
    matchesPattern (ps ++ qs) (cs ++ ds) = true := by
  induction ps generalizing cs with
  | nil =>
    cases cs with
    | nil => simpa using h2
    | cons c cs => simp [matchesPattern] at h1
  | cons p ps ih =>
    cases cs with
    | nil => simp [matchesPattern] at h1
    | cons c cs =>
      simp only [matchesPattern, Bool.and_eq_true] at h1
      simp only [List.cons_append, matchesPattern, Bool.and_eq_true]
      exact ⟨h1.1, ih h1.2⟩

theorem isDigitChar_digitChar10 (n : Nat) : isDigitChar (digitChar10 n) = true := by
  have h : n % 10 < 10 := Nat.mod_lt _ (by norm_num)
  have key : ∀ r, r < 10 → isDigitChar (Char.ofNat (48 + r)) = true := by decide
  exact key (n % 10) h

theorem matchesPattern_padNum (w n : Nat) :
    matchesPattern (List.replicate w isDigitChar) (padNum w n) = true := by
  induction w generalizing n with
  | zero => rfl
  | succ w ih =>
    rw [padNum_succ_concat, List.replicate_succ']
    exact matchesPattern_append (ih (n / 10))
      (by simp [matchesPattern, isDigitChar_digitChar10])

theorem matchesPattern_single (c : Char) : matchesPattern [chEq c] [c] = true := by
  simp [matchesPattern, chEq]

theorem matchesPattern_self (msg : PyStr) : matchesPattern (msg.map chEq) msg = true := by
  induction msg with
  | nil => rfl
  | cons c cs ih => simp [matchesPattern, chEq, ih]

/-- Matching extends through one matched character. -/
theorem matchesPattern_cons {p : Char → Bool} {c : Char} {ps : List (Char → Bool)}
    {cs : List Char} (hp : p c = true) (h : matchesPattern ps cs = true) :
    matchesPattern (p :: ps) (c :: cs) = true := by
  simp [matchesPattern, hp, h]

theorem chEq_self (c : Char) : chEq c c = true := by simp [chEq]

/-- A full timestamped log line (without its trailing newline) matches
the spec's regular expression, for every wall-clock reading. -/
theorem timestampedLine_matches (t : PyDateTime) (msg : PyStr) :
    matchesPattern (tsLinePattern msg)
      ("[".data ++ timestampText t ++ "] ".data ++ msg) = true := by
  have base :
      matchesPattern
        (chEq '[' :: (List.replicate 4 isDigitChar ++ (chEq '-' ::
          (List.replicate 2 isDigitChar ++ (chEq '-' ::
          (List.replicate 2 isDigitChar ++ (chEq ' ' ::
          (List.replicate 2 isDigitChar ++ (chEq ':' ::
          (List.replicate 2 isDigitChar ++ (chEq ':' ::
          (List.replicate 2 isDigitChar ++ (chEq '.' ::
          (List.replicate 3 isDigitChar ++ (chEq ']' :: (chEq ' ' ::
          msg.map chEq))))))))))))))))
        ('[' :: (padNum 4 t.year ++ ('-' ::
          (padNum 2 t.month ++ ('-' ::
          (padNum 2 t.day ++ (' ' ::
          (padNum 2 t.hour ++ (':' ::
          (padNum 2 t.minute ++ (':' ::
          (padNum 2 t.second ++ ('.' ::
          (padNum 3 (t.micro / 1000) ++ (']' :: (' ' ::
          msg)))))))))))))))) = true := by
    apply matchesPattern_cons (chEq_self '[')
    apply matchesPattern_append (matchesPattern_padNum 4 t.year)
    apply matchesPattern_cons (chEq_self '-')
    apply matchesPattern_append (matchesPattern_padNum 2 t.month)
    apply matchesPattern_cons (chEq_self '-')
    apply matchesPattern_append (matchesPattern_padNum 2 t.day)
    apply matchesPattern_cons (chEq_self ' ')
    apply matchesPattern_append (matchesPattern_padNum 2 t.hour)
    apply matchesPattern_cons (chEq_self ':')
    apply matchesPattern_append (matchesPattern_padNum 2 t.minute)
    apply matchesPattern_cons (chEq_self ':')
    apply matchesPattern_append (matchesPattern_padNum 2 t.second)
    apply matchesPattern_cons (chEq_self '.')
    apply matchesPattern_append (matchesPattern_padNum 3 (t.micro / 1000))
    apply matchesPattern_cons (chEq_self ']')
    apply matchesPattern_cons (chEq_self ' ')
    exact matchesPattern_self msg
  have e1 : ("[".data : List Char) = ['['] := rfl
  have e2 : ("] ".data : List Char) = [']', ' '] := rfl
  have e3 : ("-".data : List Char) = ['-'] := rfl
  have e4 : (" ".data : List Char) = [' '] := rfl
  have e5 : (":".data : List Char) = [':'] := rfl
  have e6 : (".".data : List Char) = ['.'] := rfl
  simp only [tsLinePattern, timestampText_eq, e1, e2, e3, e4, e5, e6, List.append_assoc,
    List.cons_append, List.singleton_append, List.nil_append]
  simpa using base

/-! ## No-fault evaluation lemmas for the logger -/

theorem fsOpenAppendE_noFaults (fs : FSState) (path : PyStr) :
    fsOpenAppendE noFaults fs path = .ok (fsOpenAppend fs path) := rfl

theorem fsWriteE_noFaults (fs : FSState) (h : FileHandle) (s : PyStr) :
    fsWriteE noFaults fs h s = .ok (fsWrite fs h s) := rfl

theorem fsFlushE_noFaults (fs : FSState) (h : FileHandle) :
    fsFlushE noFaults fs h = .ok fs := rfl

theorem fsFsyncE_noFaults (fs : FSState) (h : FileHandle) :
    fsFsyncE noFaults fs h = .ok fs := rfl

theorem fsMakedirsE_noFaults (fs : FSState) : fsMakedirsE noFaults fs = .ok fs := rfl

/-- A cached handle is consistent with the filesystem: its inode is the
one reachable at the caller's log path, and that inode exists. -/
def handleConsistent (st : LoggerState) (fs : FSState) (caller : PyStr) : Prop :=
  ∀ h, alistFind st.file_handles caller = some h →
    alistFind fs.dirEntries (get_log_filename st.log_directory caller) = some h.inode
      ∧ (alistFind fs.inodeData h.inode).isSome

/-- Every directory entry points at an existing inode. -/
def fsWellFormed (fs : FSState) : Prop :=
  ∀ p i, alistFind fs.dirEntries p = some i → (alistFind fs.inodeData i).isSome

/-- `append_log` through a cached handle whose inode holds `c0`:
the line is appended to that inode and nothing else changes. -/
theorem append_log_cached (st : LoggerState) (fs : FSState) (t : PyDateTime)
    (caller d : PyStr) (h : FileHandle) (c0 : PyStr)
    (hh : alistFind st.file_handles caller = some h)
    (hc : alistFind fs.inodeData h.inode = some c0) :
    append_log noFaults st fs t caller d true =
      .ok (st,
        { fs with inodeData := alistSet fs.inodeData h.inode (c0 ++ timestampedLine t d) },
        []) := by
  simp [append_log, append_log_body, get_file_handleE, hh, fsWriteE_noFaults, fsWrite, hc,
    fsFlushE_noFaults, fsFsyncE_noFaults, bind, Except.bind, pure, Except.pure]

/-- `append_log` with no cached handle and no file at the path: a file
is created holding exactly the new line, and the fresh handle is
cached. -/
theorem append_log_fresh (st : LoggerState) (fs : FSState) (t : PyDateTime)
    (caller d : PyStr)
    (hh : alistFind st.file_handles caller = none)
    (hf : alistFind fs.dirEntries (get_log_filename st.log_directory caller) = none) :
    append_log noFaults st fs t caller d true =
      .ok ({ st with
          file_handles := alistSet st.file_handles caller ⟨fs.nextHid, fs.nextInode⟩ },
        { dirEntries := alistSet fs.dirEntries
            (get_log_filename st.log_directory caller) fs.nextInode,
          inodeData := alistSet (alistSet fs.inodeData fs.nextInode [])
            fs.nextInode ([] ++ timestampedLine t d),
          nextInode := fs.nextInode + 1,
          nextHid := fs.nextHid + 1 },
        []) := by
  simp [append_log, append_log_body, get_file_handleE, hh, fsOpenAppendE_noFaults,
    fsOpenAppend, hf, fsWriteE_noFaults, fsWrite, alistFind_set_self,
    fsFlushE_noFaults, fsFsyncE_noFaults, bind, Except.bind, pure, Except.pure]

/-- `append_log` with no cached handle but an existing file holding
`c0`: the line is appended to the file's inode and the handle cached. -/
theorem append_log_reopen (st : LoggerState) (fs : FSState) (t : PyDateTime)
    (caller d : PyStr) (i : Nat) (c0 : PyStr)
    (hh : alistFind st.file_handles caller = none)
    (hf : alistFind fs.dirEntries (get_log_filename st.log_directory caller) = some i)
    (hc : alistFind fs.inodeData i = some c0) :
    append_log noFaults st fs t caller d true =
      .ok ({ st with
          file_handles := alistSet st.file_handles caller ⟨fs.nextHid, i⟩ },
        { fs with
          inodeData := alistSet fs.inodeData i (c0 ++ timestampedLine t d),
          nextHid := fs.nextHid + 1 },
        []) := by
  simp [append_log, append_log_body, get_file_handleE, hh, fsOpenAppendE_noFaults,
    fsOpenAppend, hf, fsWriteE_noFaults, fsWrite, hc,
    fsFlushE_noFaults, fsFsyncE_noFaults, bind, Except.bind, pure, Except.pure]

/-- Under no faults the flush/fsync prologue of `_verify_log_written`
succeeds without touching the state, whether or not a handle is
cached. -/
theorem verify_prologue_noFaults (st : LoggerState) (fs : FSState) (caller : PyStr) :
    (do
      match alistFind st.file_handles caller with
      | some h =>
        let fs1 ← fsFlushE noFaults fs h
        fsFsyncE noFaults fs1 h
      | none => pure fs : Except PyRaise FSState) = .ok fs := by
  cases hh : alistFind st.file_handles caller with
  | none => rfl
  | some h => simp [fsFlushE_noFaults, fsFsyncE_noFaults, bind, Except.bind, pure, Except.pure]

/-- `_verify_log_written` on an existing non-empty file reports success
and writes nothing. -/
theorem verify_nonempty (st : LoggerState) (fs : FSState) (t : PyDateTime)
    (caller message : PyStr)
    (hex : fsExists fs (get_log_filename st.log_directory caller) = true)
    (hsz : 0 < fsGetSize fs (get_log_filename st.log_directory caller)) :
    verify_log_written noFaults st fs t caller message = (fs, true, []) := by
  unfold verify_log_written
  rw [verify_prologue_noFaults]
  simp [hex, hsz]

/-- `_verify_log_written` on a missing file recreates it: the resulting
file holds exactly the recreated timestamped line. -/
theorem verify_missing (st : LoggerState) (fs : FSState) (t : PyDateTime)
    (caller message : PyStr)
    (hf : alistFind fs.dirEntries (get_log_filename st.log_directory caller) = none) :
    verify_log_written noFaults st fs t caller message =
      ({ dirEntries := alistSet fs.dirEntries
           (get_log_filename st.log_directory caller) fs.nextInode,
         inodeData := alistSet (alistSet fs.inodeData fs.nextInode [])
           fs.nextInode ([] ++ timestampedLine t message),
         nextInode := fs.nextInode + 1,
         nextHid := fs.nextHid + 1 },
       true, [Diag.warnMissingFile, Diag.recreateDone]) := by
  unfold verify_log_written
  rw [verify_prologue_noFaults]
  have hex : fsExists fs (get_log_filename st.log_directory caller) = false := by
    simp [fsExists, hf]
  simp only [hex, Bool.false_eq_true, if_false]
  simp [recreate_log_entry, fsMakedirsE_noFaults, fsOpenAppendE_noFaults, fsOpenAppend, hf,
    fsWriteE_noFaults, fsWrite, alistFind_set_self, fsFlushE_noFaults, fsFsyncE_noFaults,
    bind, Except.bind, pure, Except.pure]

/-- `_verify_log_written` on an existing-but-empty file recreates the
entry by appending it to the file's inode. -/
theorem verify_empty (st : LoggerState) (fs : FSState) (t : PyDateTime)
    (caller message : PyStr) (i : Nat)
    (hf : alistFind fs.dirEntries (get_log_filename st.log_directory caller) = some i)
    (hc : alistFind fs.inodeData i = some []) :
    verify_log_written noFaults st fs t caller message =
      ({ fs with
         inodeData := alistSet fs.inodeData i ([] ++ timestampedLine t message),
         nextHid := fs.nextHid + 1 },
       true, [Diag.warnEmptyFile, Diag.recreateDone]) := by
  unfold verify_log_written
  rw [verify_prologue_noFaults]
  have hex : fsExists fs (get_log_filename st.log_directory caller) = true := by
    simp [fsExists, hf]
  have hsz : fsGetSize fs (get_log_filename st.log_directory caller) = 0 := by
    simp [fsGetSize, fsContent, hf, hc]
  simp only [hex, if_true, hsz, Nat.lt_irrefl, if_false]
  simp [recreate_log_entry, fsMakedirsE_noFaults, fsOpenAppendE_noFaults, fsOpenAppend, hf,
    fsWriteE_noFaults, fsWrite, hc, fsFlushE_noFaults, fsFsyncE_noFaults,
    bind, Except.bind, pure, Except.pure]

theorem timestampedLine_length (t : PyDateTime) (d : PyStr) :
    (timestampedLine t d).length = 27 + d.length := by
  simp [timestampedLine, timestampText_length]
  omega

theorem timestampedLine_length_pos (t : PyDateTime) (d : PyStr) :
    0 < (timestampedLine t d).length := by
  rw [timestampedLine_length]
  omega

/-- A no-fault `log_event` on a consistent, well-formed state: the call
succeeds with no diagnostics, leaves a cached handle for the caller
whose inode sits at the log path, and that file now holds its previous
content followed by exactly the one new timestamped line. -/
theorem log_event_success (st : LoggerState) (fs : FSState) (tA tV : PyDateTime)
    (caller message : PyStr) (elapsed : Option PyStr)
    (hcons : handleConsistent st fs caller) (hwf : fsWellFormed fs) :
    ∃ (h1 : FileHandle) (st1 : LoggerState) (fs1 : FSState),
      log_event noFaults st fs tA tV caller message elapsed = (st1, fs1, []) ∧
      st1.log_directory = st.log_directory ∧
      alistFind st1.file_handles caller = some h1 ∧
      alistFind fs1.dirEntries (get_log_filename st.log_directory caller) = some h1.inode ∧
      alistFind fs1.inodeData h1.inode
        = some (((fsContent fs (get_log_filename st.log_directory caller)).getD [])
            ++ timestampedLine tA (log_event_data message elapsed)) := by
  cases hh : alistFind st.file_handles caller with
  | some h =>
    obtain ⟨hdir, hino⟩ := hcons h hh
    obtain ⟨c0, hc0⟩ := Option.isSome_iff_exists.mp hino
    have happ := append_log_cached st fs tA caller (log_event_data message elapsed) h c0 hh hc0
    refine ⟨h, st,
      { fs with
        inodeData := alistSet fs.inodeData h.inode
          (c0 ++ timestampedLine tA (log_event_data message elapsed)) },
      ?_, rfl, hh, hdir, ?_⟩
    · have hex2 : fsExists
          { fs with
            inodeData := alistSet fs.inodeData h.inode
              (c0 ++ timestampedLine tA (log_event_data message elapsed)) }
          (get_log_filename st.log_directory caller) = true := by
        simp [fsExists, hdir]
      have hsz2 : 0 < fsGetSize
          { fs with
            inodeData := alistSet fs.inodeData h.inode
              (c0 ++ timestampedLine tA (log_event_data message elapsed)) }
          (get_log_filename st.log_directory caller) := by
        simp only [fsGetSize, fsContent, hdir, Option.some_bind, alistFind_set_self,
          Option.getD_some, List.length_append]
        have := timestampedLine_length_pos tA (log_event_data message elapsed)
        omega
      have hver := verify_nonempty st _ tV caller message hex2 hsz2
      simp only [log_event, happ, hver, List.nil_append, List.append_nil]
    · simp [fsContent, hdir, hc0, alistFind_set_self]
  | none =>
    cases hf : alistFind fs.dirEntries (get_log_filename st.log_directory caller) with
    | none =>
      have happ := append_log_fresh st fs tA caller (log_event_data message elapsed) hh hf
      refine ⟨⟨fs.nextHid, fs.nextInode⟩,
        { st with
          file_handles := alistSet st.file_handles caller ⟨fs.nextHid, fs.nextInode⟩ },
        { dirEntries := alistSet fs.dirEntries
            (get_log_filename st.log_directory caller) fs.nextInode,
          inodeData := alistSet (alistSet fs.inodeData fs.nextInode [])
            fs.nextInode ([] ++ timestampedLine tA (log_event_data message elapsed)),
          nextInode := fs.nextInode + 1,
          nextHid := fs.nextHid + 1 },
        ?_, rfl, ?_, ?_, ?_⟩
      · have hex2 : fsExists
            { dirEntries := alistSet fs.dirEntries
                (get_log_filename st.log_directory caller) fs.nextInode,
              inodeData := alistSet (alistSet fs.inodeData fs.nextInode [])
                fs.nextInode ([] ++ timestampedLine tA (log_event_data message elapsed)),
              nextInode := fs.nextInode + 1,
              nextHid := fs.nextHid + 1 }
            (get_log_filename st.log_directory caller) = true := by
          simp [fsExists, alistFind_set_self]
        have hsz2 : 0 < fsGetSize
            { dirEntries := alistSet fs.dirEntries
                (get_log_filename st.log_directory caller) fs.nextInode,
              inodeData := alistSet (alistSet fs.inodeData fs.nextInode [])
                fs.nextInode ([] ++ timestampedLine tA (log_event_data message elapsed)),
              nextInode := fs.nextInode + 1,
              nextHid := fs.nextHid + 1 }
            (get_log_filename st.log_directory caller) := by
          simp only [fsGetSize, fsContent, alistFind_set_self, Option.some_bind,
            Option.getD_some, List.length_append, List.nil_append]
          exact timestampedLine_length_pos tA (log_event_data message elapsed)
        have hver := verify_nonempty
          { st with
            file_handles := alistSet st.file_handles caller ⟨fs.nextHid, fs.nextInode⟩ }
          _ tV caller message hex2 hsz2
        simp only [List.nil_append] at happ hver
        simp only [log_event, happ, hver, List.nil_append, List.append_nil]
      · exact alistFind_set_self st.file_handles caller _
      · exact alistFind_set_self fs.dirEntries _ _
      · simp [fsContent, hf, alistFind_set_self]
    | some i =>
      have hino := hwf _ _ hf
      obtain ⟨c0, hc0⟩ := Option.isSome_iff_exists.mp hino
      have happ := append_log_reopen st fs tA caller (log_event_data message elapsed) i c0 hh hf hc0
      refine ⟨⟨fs.nextHid, i⟩,
        { st with
          file_handles := alistSet st.file_handles caller ⟨fs.nextHid, i⟩ },
        { fs with
          inodeData := alistSet fs.inodeData i
            (c0 ++ timestampedLine tA (log_event_data message elapsed)),
          nextHid := fs.nextHid + 1 },
        ?_, rfl, ?_, hf, ?_⟩
      · have hex2 : fsExists
            { fs with
              inodeData := alistSet fs.inodeData i
                (c0 ++ timestampedLine tA (log_event_data message elapsed)),
              nextHid := fs.nextHid + 1 }
            (get_log_filename st.log_directory caller) = true := by
          simp [fsExists, hf]
        have hsz2 : 0 < fsGetSize
            { fs with
              inodeData := alistSet fs.inodeData i
                (c0 ++ timestampedLine tA (log_event_data message elapsed)),
              nextHid := fs.nextHid + 1 }
            (get_log_filename st.log_directory caller) := by
          simp only [fsGetSize, fsContent, hf, Option.some_bind, alistFind_set_self,
            Option.getD_some, List.length_append]
          have := timestampedLine_length_pos tA (log_event_data message elapsed)
          omega
        have hver := verify_nonempty
          { st with file_handles := alistSet st.file_handles caller ⟨fs.nextHid, i⟩ }
          _ tV caller message hex2 hsz2
        simp only [log_event, happ, hver, List.nil_append, List.append_nil]
      · exact alistFind_set_self st.file_handles caller _
      · simp [fsContent, hf, hc0, alistFind_set_self]

/-! ## Extraction helpers for pipeline effects -/

theorem chunkPairs_append (a b : List PipeEffect) :
    chunkPairs (a ++ b) = chunkPairs a ++ chunkPairs b := by
  simp [chunkPairs, List.filterMap_append]

theorem chunkPairs_success_cons (l : PyStr) (d : Dispatch) (rest : List PipeEffect) :
    chunkPairs (PipeEffect.successLine l d :: rest) = chunkPairs rest := by
  simp [chunkPairs, List.filterMap_cons]

theorem chunkPairs_turn_singleton (r : TurnRecord) (d : Dispatch) :
    chunkPairs [PipeEffect.turnRecord r d] = [] := rfl

theorem chunkPairs_map_chunk (l : List (Nat × PyStr)) :
    chunkPairs (l.map fun p => PipeEffect.chunkRecord p.1 p.2 Dispatch.scheduled) = l := by
  induction l with
  | nil => rfl
  | cons p rest ih =>
    cases p
    simp [chunkPairs, List.filterMap_cons] at ih ⊢
    exact ih

theorem turnRecords_append (a b : List PipeEffect) :
    turnRecords (a ++ b) = turnRecords a ++ turnRecords b := by
  simp [turnRecords, List.filterMap_append]

theorem turnRecords_success_cons (l : PyStr) (d : Dispatch) (rest : List PipeEffect) :
    turnRecords (PipeEffect.successLine l d :: rest) = turnRecords rest := by
  simp [turnRecords, List.filterMap_cons]

theorem turnRecords_turn_singleton (r : TurnRecord) (d : Dispatch) :
    turnRecords [PipeEffect.turnRecord r d] = [r] := rfl

theorem turnRecords_map_chunk (l : List (Nat × PyStr)) :
    turnRecords (l.map fun p => PipeEffect.chunkRecord p.1 p.2 Dispatch.scheduled) = [] := by
  induction l with
  | nil => rfl
  | cons p rest ih =>
    simp [turnRecords, List.filterMap_cons] at ih ⊢

theorem successLines_append (a b : List PipeEffect) :
    successLines (a ++ b) = successLines a ++ successLines b := by
  simp [successLines, List.filterMap_append]

theorem successLines_success_cons (l : PyStr) (d : Dispatch) (rest : List PipeEffect) :
    successLines (PipeEffect.successLine l d :: rest) = l :: successLines rest := by
  simp [successLines, List.filterMap_cons]

theorem successLines_turn_singleton (r : TurnRecord) (d : Dispatch) :
    successLines [PipeEffect.turnRecord r d] = [] := rfl

theorem successLines_map_chunk (l : List (Nat × PyStr)) :
    successLines (l.map fun p => PipeEffect.chunkRecord p.1 p.2 Dispatch.scheduled) = [] := by
  induction l with
  | nil => rfl
  | cons p rest ih =>
    simp [successLines, List.filterMap_cons] at ih ⊢

theorem enumFrom_zero {α : Type} (l : List α) : List.enumFrom 0 l = l.enum := rfl

/-- The effects of a streaming call whose fragments were delivered
(and possibly followed by an iteration error): the awaited success
line first, then the scheduled chunk records, then — only on normal
exhaustion — one scheduled turn record. -/
theorem stream_effects_shape (frags : List (Option PyStr)) (iterErr : Option PyStr)
    (ts : PyStr) (messages : List ChatMessage) (model user : PyStr) :
    (get_response_stream (.delivered frags iterErr) ts messages model user).effects
      = PipeEffect.successLine (success_log_line ts messages true model user)
          Dispatch.awaited
        :: ((List.enumFrom 0 (nonEmptyTexts frags)).map
            (fun p => PipeEffect.chunkRecord p.1 p.2 Dispatch.scheduled)
          ++ (match iterErr with
              | none => [PipeEffect.turnRecord
                  { model := model, streaming := true, user_phone_number := user,
                    messages := messages, response := (nonEmptyTexts frags).flatten,
                    response_chars := (nonEmptyTexts frags).flatten.length }
                  Dispatch.scheduled]
              | some _ => [])) := by
  have hsl := stream_loop_eq frags 0 []
  cases iterErr with
  | none => simp [get_response_stream, hsl]
  | some e => simp [get_response_stream, hsl]

/-- C4: for every streaming call whose fragment sequence completes
without error, fragments with empty or absent text are neither counted
nor yielded; each non-empty fragment is yielded unchanged with a
0-based sequence number increasing by exactly 1 per non-empty fragment
in emission order; and the turn record's response is the concatenation
of the non-empty fragments — in particular fragments
`["Hel", "lo", "", " world"]` yield 3 fragments numbered 0, 1, 2 and a
response of `"Hello world"`. -/
theorem stream_completed_fragment_semantics :
    (∀ (frags : List (Option PyStr)) (ts : PyStr) (messages : List ChatMessage)
        (model user : PyStr),
      (get_response_stream (.delivered frags none) ts messages model user).yields
          = nonEmptyTexts frags
        ∧ chunkPairs (get_response_stream (.delivered frags none) ts messages model user).effects
          = (nonEmptyTexts frags).enum
        ∧ turnRecords (get_response_stream (.delivered frags none) ts messages model user).effects
          = [{ model := model, streaming := true, user_phone_number := user,
               messages := messages, response := (nonEmptyTexts frags).flatten,
               response_chars := (nonEmptyTexts frags).flatten.length }])
    ∧ nonEmptyTexts [some "Hel".data, some "lo".data, some "".data, some " world".data]
        = ["Hel".data, "lo".data, " world".data]
    ∧ (["Hel".data, "lo".data, " world".data] : List PyStr).enum
        = [(0, "Hel".data), (1, "lo".data), (2, " world".data)]
    ∧ (["Hel".data, "lo".data, " world".data] : List PyStr).flatten = "Hello world".data := by
  refine ⟨?_, by decide, by decide, by decide⟩
  intro frags ts messages model user
  have hsl := stream_loop_eq frags 0 []
  have heff := stream_effects_shape frags none ts messages model user
  refine ⟨?_, ?_, ?_⟩
  · simp [get_response_stream, hsl]
  · rw [heff, chunkPairs_success_cons, chunkPairs_append, chunkPairs_map_chunk,
      chunkPairs_turn_singleton, enumFrom_zero, List.append_nil]
  · rw [heff, turnRecords_success_cons, turnRecords_append, turnRecords_map_chunk,
      turnRecords_turn_singleton, List.nil_append]

/-- C3 counterexample: when stream establishment itself fails,
`get_response_stream` nevertheless yields the failure-marker sentinel
fragment — the claim says it should yield none in that case. -/
theorem stream_establish_failure_counterexample :
    (get_response_stream (.establishFail "connection refused".data) "ts".data []
        "gpt".data "u".data).yields = [errorSentinel]
    ∧ errorSentinel ≠ [] :=
  ⟨rfl, by decide⟩

/-- C3 (amended): a failure to establish the stream yields exactly one
sentinel fragment — the same marker as an in-stream failure — rather
than no fragment; an error while iterating an established stream
yields the non-empty fragments delivered so far followed by exactly
one sentinel. -/
theorem stream_failure_yields_one_sentinel :
    (∀ (e ts : PyStr) (messages : List ChatMessage) (model user : PyStr),
      (get_response_stream (.establishFail e) ts messages model user).yields
        = [errorSentinel])
    ∧ (∀ (frags : List (Option PyStr)) (err ts : PyStr) (messages : List ChatMessage)
        (model user : PyStr),
      (get_response_stream (.delivered frags (some err)) ts messages model user).yields
        = nonEmptyTexts frags ++ [errorSentinel]) := by
  constructor
  · intro e ts messages model user
    rfl
  · intro frags err ts messages model user
    have hsl := stream_loop_eq frags 0 []
    simp [get_response_stream, hsl]

/-- C2 counterexample: a streaming call that raises while iterating an
already-established stream still produces a success-log entry, because
the entry is written right after establishment — the claim says such a
call must produce none. -/
theorem stream_iteration_failure_success_counterexample :
    successLines (get_response_stream (.delivered [] (some "boom".data)) "ts".data []
        "gpt".data "u".data).effects
      = [success_log_line "ts".data [] true "gpt".data "u".data]
    ∧ [success_log_line "ts".data [] true "gpt".data "u".data] ≠ ([] : List PyStr) :=
  ⟨rfl, by decide⟩

/-- C2 (amended): a success-log entry is written exactly when the
remote call (non-streaming) or the stream establishment (streaming)
did not raise; an error while iterating an already-established stream
leaves intact the success record written at establishment. -/
theorem success_log_iff_remote_accepts :
    (∀ (c : Completion) (ts : PyStr) (messages : List ChatMessage) (model user : PyStr),
      successLines (create_completion (.ok c) ts messages model user).effects
        = [success_log_line ts messages false model user])
    ∧ (∀ (e ts : PyStr) (messages : List ChatMessage) (model user : PyStr),
      successLines (create_completion (.error e) ts messages model user).effects = [])
    ∧ (∀ (e ts : PyStr) (messages : List ChatMessage) (model user : PyStr),
      successLines (get_response_stream (.establishFail e) ts messages model user).effects
        = [])
    ∧ (∀ (frags : List (Option PyStr)) (iterErr : Option PyStr) (ts : PyStr)
        (messages : List ChatMessage) (model user : PyStr),
      successLines
          (get_response_stream (.delivered frags iterErr) ts messages model user).effects
        = [success_log_line ts messages true model user]) := by
  refine ⟨?_, ?_, ?_, ?_⟩
  · intro c ts messages model user
    rfl
  · intro e ts messages model user
    rfl
  · intro e ts messages model user
    rfl
  · intro frags iterErr ts messages model user
    cases iterErr with
    | none =>
      rw [stream_effects_shape, successLines_success_cons, successLines_append,
        successLines_map_chunk, successLines_turn_singleton]
      rfl
    | some e =>
      rw [stream_effects_shape, successLines_success_cons, successLines_append,
        successLines_map_chunk]
      rfl

/-- Whether one pipeline-sink invocation uses the dispatch mode the
source gives it: turn and chunk records are scheduled background
tasks, the success line is awaited inline. -/
def dispatchOk (e : PipeEffect) : Bool :=
  match e with
  | .successLine _ d => d == Dispatch.awaited
  | .chunkRecord _ _ d => d == Dispatch.scheduled
  | .turnRecord _ d => d == Dispatch.scheduled

def wellDispatched (effs : List PipeEffect) : Bool := effs.all dispatchOk

theorem all_dispatchOk_map_chunk (l : List (Nat × PyStr)) :
    (l.map fun p => PipeEffect.chunkRecord p.1 p.2 Dispatch.scheduled).all dispatchOk
      = true := by
  induction l with
  | nil => rfl
  | cons p rest ih => simp [List.all_cons, dispatchOk, ih]

/-- C9 counterexample: in `create_completion` the success-log sink is
awaited on the calling path (dispatch mode `awaited`, sink index 2 =
success), not scheduled — the claim says all three sinks are
fire-and-forget. -/
theorem success_sink_awaited_counterexample :
    (create_completion (.ok { choices := [] }) "ts".data [] "gpt".data "u".data).effects.map
        dispatchOf = [Dispatch.awaited]
    ∧ (create_completion (.ok { choices := [] }) "ts".data [] "gpt".data "u".data).effects.map
        sinkOf = [2]
    ∧ Dispatch.awaited ≠ Dispatch.scheduled :=
  ⟨rfl, rfl, by decide⟩

/-- C9 (amended): in `create_completion`, `get_response_content` and
`get_response_stream` the turn-log and chunk-log sinks are dispatched
as scheduled background tasks, but the success-log sink is awaited
inline on the calling path. -/
theorem sink_dispatch_modes :
    (∀ (r : RemoteOutcome) (ts : PyStr) (messages : List ChatMessage) (model user : PyStr),
      wellDispatched (create_completion r ts messages model user).effects = true)
    ∧ (∀ (r : RemoteOutcome) (ts : PyStr) (messages : List ChatMessage) (model user : PyStr),
      wellDispatched (get_response_content r ts messages model user).effects = true)
    ∧ (∀ (b : StreamBehavior) (ts : PyStr) (messages : List ChatMessage) (model user : PyStr),
      wellDispatched (get_response_stream b ts messages model user).effects = true) := by
  refine ⟨?_, ?_, ?_⟩
  · intro r ts messages model user
    cases r <;> rfl
  · intro r ts messages model user
    cases r with
    | error e => rfl
    | ok c =>
      obtain ⟨choices⟩ := c
      cases choices with
      | nil => rfl
      | cons ch rest =>
        obtain ⟨msg⟩ := ch
        cases msg <;> rfl
  · intro b ts messages model user
    cases b with
    | establishFail e => rfl
    | delivered frags iterErr =>
      rw [wellDispatched, stream_effects_shape]
      cases iterErr with
      | none =>
        simp [List.all_cons, List.all_append, dispatchOk, all_dispatchOk_map_chunk]
      | some e =>
        simp [List.all_cons, List.all_append, dispatchOk, all_dispatchOk_map_chunk]

set_option maxRecDepth 100000 in
/-- C8 counterexample: one outbound message whose content is 1001
characters long produces a flattened rendering of 1003 characters
(1000 kept characters plus the three-character ellipsis), exceeding
the claimed 1000-character bound. -/
theorem success_row_over_1000_counterexample :
    ¬ ((build_success_row [{ role := none, content := some (List.replicate 1001 'a') }]).length
        ≤ 1000) := by
  decide

/-- C8 (amended): the flattened rendering of the outbound message list
in a success-log line is at most 1003 characters: renderings longer
than 1000 characters are cut to their first 1000 characters and a
three-character ellipsis is appended. -/
theorem success_row_length_le_1003 :
    ∀ messages : List ChatMessage, (build_success_row messages).length ≤ 1003 := by
  intro messages
  have key : ∀ row : PyStr,
      (if 1000 < row.length then row.take 1000 ++ "...".data else row).length ≤ 1003 := by
    intro row
    by_cases hlen : 1000 < row.length
    · simp only [hlen, if_true, List.length_append, List.length_take]
      have h3 : ("...".data : List Char).length = 3 := by decide
      rw [h3]
      have := Nat.min_le_left 1000 row.length
      omega
    · simp only [hlen, if_false]
      omega
  unfold build_success_row
  cases he : messages.isEmpty with
  | true => simp
  | false =>
    simp only [Bool.false_eq_true, if_false]
    exact key _

/-! ## Claims about the handle cache and append_log -/

def c1State : LoggerState := { log_directory := "call-logs".data, file_handles := [] }

/-- The pair of handles `_get_file_handle` returns for the raw keys
`"+1"` and then `"1"`, starting from a fresh logger and an empty
filesystem. -/
def collisionHandles : Option (FileHandle × FileHandle) :=
  match get_file_handleE noFaults c1State emptyFS "+1".data with
  | .ok (st1, fs1, h1) =>
    match get_file_handleE noFaults st1 fs1 "1".data with
    | .ok (_, _, h2) => some (h1, h2)
    | .error _ => none
  | .error _ => none

/-- C1 counterexample: the keys `"+1"` and `"1"` normalize to the same
token, yet `_get_file_handle` — whose cache is keyed by the raw caller
number — opens and returns two distinct live handles (to the same
inode), so more than one live handle exists for that normalized key. -/
theorem handle_cache_collision_counterexample :
    safe_number "+1".data = safe_number "1".data
    ∧ collisionHandles = some (⟨0, 0⟩, ⟨1, 0⟩)
    ∧ (⟨0, 0⟩ : FileHandle) ≠ (⟨1, 0⟩ : FileHandle) :=
  ⟨by decide, by decide, by decide⟩

/-- C1 (amended): the handle cache guarantees at most one live handle
per raw caller-number key — a repeated `_get_file_handle` call with
the same raw key returns the cached handle and changes nothing — and
keys with equal normalized tokens map to the same log file path; but
distinct raw keys that normalize alike each hold their own live
handle. -/
theorem handle_cache_per_raw_key :
    (∀ (fl : FaultSpec) (st st1 : LoggerState) (fs fs1 : FSState) (caller : PyStr)
        (h : FileHandle),
      get_file_handleE fl st fs caller = .ok (st1, fs1, h) →
      get_file_handleE fl st1 fs1 caller = .ok (st1, fs1, h))
    ∧ (∀ dir k1 k2 : PyStr, safe_number k1 = safe_number k2 →
        get_log_filename dir k1 = get_log_filename dir k2) := by
  constructor
  · intro fl st st1 fs fs1 caller h hcall
    cases hh : alistFind st.file_handles caller with
    | some h0 =>
      rw [get_file_handleE, hh] at hcall
      obtain ⟨hst, hfs, hhd⟩ : st = st1 ∧ fs = fs1 ∧ h0 = h := by
        cases hcall
        exact ⟨rfl, rfl, rfl⟩
      subst hst
      subst hfs
      subst hhd
      rw [get_file_handleE, hh]
    | none =>
      rw [get_file_handleE, hh] at hcall
      cases hop : fsOpenAppendE fl fs (get_log_filename st.log_directory caller) with
      | error e =>
        rw [hop] at hcall
        cases hcall
      | ok v =>
        obtain ⟨fs', h'⟩ := v
        rw [hop] at hcall
        obtain ⟨hst, hfs, hhd⟩ :
            ({ st with file_handles := alistSet st.file_handles caller h' } : LoggerState)
              = st1 ∧ fs' = fs1 ∧ h' = h := by
          cases hcall
          exact ⟨rfl, rfl, rfl⟩
        subst hst
        subst hfs
        subst hhd
        rw [get_file_handleE]
        simp [alistFind_set_self]
  · intro dir k1 k2 hsafe
    unfold get_log_filename
    rw [hsafe]

def st1c : LoggerState :=
  { log_directory := "call-logs".data, file_handles := [("+1".data, ⟨0, 0⟩)] }

def fs1c : FSState :=
  { dirEntries := [("call-logs/1.txt".data, 0)], inodeData := [(0, [])],
    nextInode := 1, nextHid := 1 }

theorem handle_cache_per_raw_key_witness :
    get_file_handleE noFaults st1c fs1c "+1".data = .ok (st1c, fs1c, ⟨0, 0⟩)
    ∧ get_log_filename "call-logs".data "+1".data
      = get_log_filename "call-logs".data "1".data :=
  ⟨handle_cache_per_raw_key.1 noFaults c1State st1c emptyFS fs1c "+1".data ⟨0, 0⟩ rfl,
   handle_cache_per_raw_key.2 "call-logs".data "+1".data "1".data (by decide)⟩

/-- C7: `append_log` never raises: whatever subset of its primitive
steps fails — obtaining the handle, writing, flushing — the result is
a normal return, and on any such failure the same `log_data` is routed
to `_recreate_log_entry`; when that fallback also fails no exception
propagates either. -/
theorem append_log_never_raises :
    (∀ (fl : FaultSpec) (st : LoggerState) (fs : FSState) (t : PyDateTime)
        (caller d : PyStr) (b : Bool),
      (append_log fl st fs t caller d b).isOk = true)
    ∧ (∀ (fl : FaultSpec) (st : LoggerState) (fs : FSState) (t : PyDateTime)
        (caller d : PyStr) (b : Bool) (e : PyStr) (fsE : FSState),
      append_log_body fl st fs t caller d b = .error (e, fsE) →
      append_log fl st fs t caller d b
        = .ok (st, (recreate_log_entry fl st fsE t caller d).1,
            Diag.appendFailed :: (recreate_log_entry fl st fsE t caller d).2)) := by
  constructor
  · intro fl st fs t caller d b
    cases hb : append_log_body fl st fs t caller d b with
    | ok v =>
      obtain ⟨st1, fs'⟩ := v
      simp [append_log, hb, Except.isOk, Except.toBool]
    | error v =>
      obtain ⟨e, fsE⟩ := v
      rcases hr : recreate_log_entry fl st fsE t caller d with ⟨fs', ds⟩
      simp [append_log, hb, hr, Except.isOk, Except.toBool]
  · intro fl st fs t caller d b e fsE hb
    rcases hr : recreate_log_entry fl st fsE t caller d with ⟨fs', ds⟩
    simp [append_log, hb, hr]

def flOpenFail : FaultSpec :=
  { openFails := true, writeFails := false, flushFails := false,
    fsyncFails := false, makedirsFails := false }

def t0 : PyDateTime :=
  { year := 2024, month := 5, day := 17, hour := 12, minute := 34, second := 56,
    micro := 789000 }

theorem append_log_never_raises_witness :
    append_log flOpenFail c1State emptyFS t0 "k".data "hello".data true
      = .ok (c1State,
          (recreate_log_entry flOpenFail c1State emptyFS t0 "k".data "hello".data).1,
          Diag.appendFailed
            :: (recreate_log_entry flOpenFail c1State emptyFS t0 "k".data "hello".data).2) :=
  append_log_never_raises.2 flOpenFail c1State emptyFS t0 "k".data "hello".data true
    "open failed".data emptyFS rfl

/-! ## The filename / single-line claim -/

theorem newline_not_mem_padNum (w n : Nat) : '\n' ∉ padNum w n := by
  induction w generalizing n with
  | zero => simp [padNum]
  | succ w ih =>
    rw [padNum_succ_concat]
    intro hmem
    rcases List.mem_append.mp hmem with h | h
    · exact ih (n / 10) h
    · have hd : ('\n' : Char) = digitChar10 n := by
        simpa using h
      have : isDigitChar '\n' = true := by
        rw [hd]
        exact isDigitChar_digitChar10 n
      exact absurd this (by decide)

theorem newline_not_mem_timestampText (t : PyDateTime) : '\n' ∉ timestampText t := by
  rw [timestampText_eq]
  intro hmem
  simp only [List.mem_append, or_assoc] at hmem
  rcases hmem with h | h | h | h | h | h | h | h | h | h | h | h | h
  all_goals first
    | exact newline_not_mem_padNum _ _ h
    | exact absurd h (by decide)

def phoneKey : PyStr := "+1 (555) 123-4567".data

/-- C5: the log file name is the session key with exactly the
characters `+`, `-`, space, `(` and `)` stripped, with `.txt`
appended — the key `"+1 (555) 123-4567"` maps to `15551234567.txt` —
and a successful `logEvent(key, "hello", None)` appends exactly one
line (newline-terminated, with no embedded newline) matching
`\[\d{4}-\d{2}-\d{2} \d{2}:\d{2}:\d{2}\.\d{3}\] hello`. -/
theorem log_filename_and_single_line :
    (∀ caller : PyStr,
      safe_number caller = caller.filter
        (fun c => decide (¬ (c = '+' ∨ c = '-' ∨ c = ' ' ∨ c = '(' ∨ c = ')'))))
    ∧ safe_number phoneKey ++ ".txt".data = "15551234567.txt".data
    ∧ get_log_filename "call-logs".data phoneKey = "call-logs/15551234567.txt".data
    ∧ (∀ (st : LoggerState) (fs : FSState) (tA tV : PyDateTime),
        handleConsistent st fs phoneKey → fsWellFormed fs →
        ∃ L : PyStr,
          fsContent (log_event noFaults st fs tA tV phoneKey "hello".data none).2.1
              (get_log_filename st.log_directory phoneKey)
            = some (((fsContent fs (get_log_filename st.log_directory phoneKey)).getD [])
                ++ (L ++ "\n".data))
          ∧ matchesPattern (tsLinePattern "hello".data) L = true
          ∧ '\n' ∉ L) := by
  refine ⟨?_, by decide, by decide, ?_⟩
  · intro caller
    unfold safe_number pyRemoveChar
    rw [List.filter_filter, List.filter_filter, List.filter_filter, List.filter_filter]
    apply List.filter_congr
    intro c _
    by_cases h1 : c = '+' <;> by_cases h2 : c = '-' <;> by_cases h3 : c = ' '
      <;> by_cases h4 : c = '(' <;> by_cases h5 : c = ')'
      <;> simp [h1, h2, h3, h4, h5]
  · intro st fs tA tV hcons hwf
    obtain ⟨h1, st1, fs1, hrun, hdirEq, hcache, hdir, hdata⟩ :=
      log_event_success st fs tA tV phoneKey "hello".data none hcons hwf
    refine ⟨"[".data ++ timestampText tA ++ "] ".data ++ "hello".data, ?_, ?_, ?_⟩
    · rw [hrun]
      show fsContent fs1 (get_log_filename st.log_directory phoneKey) = _
      rw [fsContent, hdir]
      rw [show (some h1.inode).bind (alistFind fs1.inodeData)
          = alistFind fs1.inodeData h1.inode from rfl]
      rw [hdata]
      simp [timestampedLine, log_event_data, List.append_assoc]
    · exact timestampedLine_matches tA "hello".data
    · intro hmem
      simp only [List.mem_append] at hmem
      rcases hmem with ((h | h) | h) | h
      · exact absurd h (by decide)
      · exact newline_not_mem_timestampText tA h
      · exact absurd h (by decide)
      · exact absurd h (by decide)

theorem log_filename_and_single_line_witness :
    ∃ L : PyStr,
      fsContent (log_event noFaults c1State emptyFS t0 t0 phoneKey "hello".data none).2.1
          (get_log_filename c1State.log_directory phoneKey)
        = some (((fsContent emptyFS (get_log_filename c1State.log_directory phoneKey)).getD [])
            ++ (L ++ "\n".data))
      ∧ matchesPattern (tsLinePattern "hello".data) L = true
      ∧ '\n' ∉ L :=
  log_filename_and_single_line.2.2.2 c1State emptyFS t0 t0
    (fun _h hh => Option.noConfusion hh) (fun _p _i hh => Option.noConfusion hh)

/-! ## Verification / recovery claims -/

/-- A `log_event` whose cached handle has been orphaned (the log path
no longer exists, e.g. after external deletion): the append lands on
the orphaned inode, verification finds the path missing, and the
recreated file holds exactly the freshly timestamped bare message. -/
theorem log_event_orphan_recreates (st : LoggerState) (fs : FSState) (tA tV : PyDateTime)
    (caller message : PyStr) (elapsed : Option PyStr) (h1 : FileHandle) (c1 : PyStr)
    (hcache : alistFind st.file_handles caller = some h1)
    (hc1 : alistFind fs.inodeData h1.inode = some c1)
    (hmissing : alistFind fs.dirEntries (get_log_filename st.log_directory caller) = none) :
    fsContent (log_event noFaults st fs tA tV caller message elapsed).2.1
        (get_log_filename st.log_directory caller)
      = some (timestampedLine tV message) := by
  have happ := append_log_cached st fs tA caller (log_event_data message elapsed) h1 c1
    hcache hc1
  have hmiss2 : alistFind
      ({ fs with
         inodeData := alistSet fs.inodeData h1.inode
           (c1 ++ timestampedLine tA (log_event_data message elapsed)) } : FSState).dirEntries
      (get_log_filename st.log_directory caller) = none := hmissing
  have hver := verify_missing st _ tV caller message hmiss2
  simp only [log_event, happ, hver, List.nil_append]
  simp [fsContent, alistFind_set_self]

/-- C6: `_verify_log_written` reports success without writing anything
when the file exists with nonzero size; it invokes
`_recreate_log_entry` exactly when the file is missing or empty; and
if the file is deleted between two `log_event` calls for the same key,
the second call still results in a file containing that call's
message. -/
theorem verify_noop_recreate_and_self_healing :
    (∀ (st : LoggerState) (fs : FSState) (t : PyDateTime) (caller message : PyStr),
      fsExists fs (get_log_filename st.log_directory caller) = true →
      0 < fsGetSize fs (get_log_filename st.log_directory caller) →
      verify_log_written noFaults st fs t caller message = (fs, true, []))
    ∧ (∀ (st : LoggerState) (fs : FSState) (t : PyDateTime) (caller message : PyStr),
      alistFind fs.dirEntries (get_log_filename st.log_directory caller) = none →
      verify_log_written noFaults st fs t caller message
        = ((recreate_log_entry noFaults st fs t caller message).1, true,
            Diag.warnMissingFile
              :: (recreate_log_entry noFaults st fs t caller message).2))
    ∧ (∀ (st : LoggerState) (fs : FSState) (t : PyDateTime) (caller message : PyStr)
        (i : Nat),
      alistFind fs.dirEntries (get_log_filename st.log_directory caller) = some i →
      alistFind fs.inodeData i = some [] →
      verify_log_written noFaults st fs t caller message
        = ((recreate_log_entry noFaults st fs t caller message).1, true,
            Diag.warnEmptyFile
              :: (recreate_log_entry noFaults st fs t caller message).2))
    ∧ (∀ (st : LoggerState) (fs : FSState) (t1 t2 t3 t4 : PyDateTime)
        (caller m1 m2 : PyStr),
      handleConsistent st fs caller → fsWellFormed fs →
      fsContent
          (log_event noFaults
            (log_event noFaults st fs t1 t2 caller m1 none).1
            (fsUnlink (log_event noFaults st fs t1 t2 caller m1 none).2.1
              (get_log_filename st.log_directory caller))
            t3 t4 caller m2 none).2.1
          (get_log_filename st.log_directory caller)
        = some (timestampedLine t4 m2)) := by
  refine ⟨?_, ?_, ?_, ?_⟩
  · intro st fs t caller message hex hsz
    exact verify_nonempty st fs t caller message hex hsz
  · intro st fs t caller message hf
    unfold verify_log_written
    rw [verify_prologue_noFaults]
    have hex : fsExists fs (get_log_filename st.log_directory caller) = false := by
      simp [fsExists, hf]
    rcases hr : recreate_log_entry noFaults st fs t caller message with ⟨fs', ds⟩
    simp [hex, hr]
  · intro st fs t caller message i hf hc
    unfold verify_log_written
    rw [verify_prologue_noFaults]
    have hex : fsExists fs (get_log_filename st.log_directory caller) = true := by
      simp [fsExists, hf]
    have hsz : fsGetSize fs (get_log_filename st.log_directory caller) = 0 := by
      simp [fsGetSize, fsContent, hf, hc]
    rcases hr : recreate_log_entry noFaults st fs t caller message with ⟨fs', ds⟩
    simp [hex, hsz, hr]
  · intro st fs t1 t2 t3 t4 caller m1 m2 hcons hwf
    obtain ⟨h1, st1, fs1, hrun, hdirEq, hcache, hdir, hdata⟩ :=
      log_event_success st fs t1 t2 caller m1 none hcons hwf
    rw [hrun, ← hdirEq]
    exact log_event_orphan_recreates st1
      (fsUnlink fs1 (get_log_filename st1.log_directory caller)) t3 t4 caller m2 none h1 _
      hcache hdata (alistFind_remove_self fs1.dirEntries _)

theorem verify_noop_recreate_and_self_healing_witness :
    fsContent
        (log_event noFaults
          (log_event noFaults c1State emptyFS t0 t0 "k".data "first".data none).1
          (fsUnlink (log_event noFaults c1State emptyFS t0 t0 "k".data "first".data none).2.1
            (get_log_filename c1State.log_directory "k".data))
          t0 t0 "k".data "second".data none).2.1
        (get_log_filename c1State.log_directory "k".data)
      = some (timestampedLine t0 "second".data) :=
  verify_noop_recreate_and_self_healing.2.2.2 c1State emptyFS t0 t0 t0 t0
    "k".data "first".data "second".data
    (fun _h hh => Option.noConfusion hh) (fun _p _i hh => Option.noConfusion hh)

/-- C10: when `log_event` is called with a non-null start time and its
appended line lands on an orphaned handle (so verification finds the
file missing), the recreated line holds only the bare message with a
fresh timestamp, while the lost line carried the elapsed-time
annotation — so the recovered line is not identical to the lost one. -/
theorem elapsed_annotation_lost_on_recreate :
    ∀ (st : LoggerState) (fs : FSState) (t3 t4 : PyDateTime) (caller m es : PyStr)
      (h1 : FileHandle) (c1 : PyStr),
      alistFind st.file_handles caller = some h1 →
      alistFind fs.inodeData h1.inode = some c1 →
      alistFind fs.dirEntries (get_log_filename st.log_directory caller) = none →
      h1.inode ≠ fs.nextInode →
      fsContent (log_event noFaults st fs t3 t4 caller m (some es)).2.1
          (get_log_filename st.log_directory caller)
        = some (timestampedLine t4 m)
      ∧ alistFind (log_event noFaults st fs t3 t4 caller m (some es)).2.1.inodeData h1.inode
          = some (c1 ++ timestampedLine t3 ("[".data ++ es ++ "s] ".data ++ m))
      ∧ timestampedLine t4 m ≠ timestampedLine t3 ("[".data ++ es ++ "s] ".data ++ m) := by
  intro st fs t3 t4 caller m es h1 c1 hcache hc1 hmissing hfresh
  have happ := append_log_cached st fs t3 caller (log_event_data m (some es)) h1 c1 hcache hc1
  have hmiss2 : alistFind
      ({ fs with
         inodeData := alistSet fs.inodeData h1.inode
           (c1 ++ timestampedLine t3 (log_event_data m (some es))) } : FSState).dirEntries
      (get_log_filename st.log_directory caller) = none := hmissing
  have hver := verify_missing st _ t4 caller m hmiss2
  refine ⟨?_, ?_, ?_⟩
  · simp only [log_event, happ, hver, List.nil_append]
    simp [fsContent, alistFind_set_self]
  · simp only [log_event, happ, hver, List.nil_append]
    show alistFind (alistSet (alistSet
        (alistSet fs.inodeData h1.inode
          (c1 ++ timestampedLine t3 (log_event_data m (some es))))
        fs.nextInode []) fs.nextInode ([] ++ timestampedLine t4 m)) h1.inode = _
    rw [alistFind_set_other _ _ _ _ (fun hh => hfresh hh.symm),
      alistFind_set_other _ _ _ _ (fun hh => hfresh hh.symm),
      alistFind_set_self]
    rfl
  · intro heq
    have hlen := congrArg List.length heq
    rw [timestampedLine_length, timestampedLine_length] at hlen
    simp only [List.length_append, List.length_cons, List.length_nil] at hlen
    omega

def stOrphan : LoggerState :=
  { log_directory := "call-logs".data, file_handles := [("k".data, ⟨0, 0⟩)] }

def fsOrphan : FSState :=
  { dirEntries := [], inodeData := [(0, [])], nextInode := 1, nextHid := 1 }

theorem elapsed_annotation_lost_on_recreate_witness :
    fsContent (log_event noFaults stOrphan fsOrphan t0 t0 "k".data "msg".data
          (some "  1.2345".data)).2.1
        (get_log_filename stOrphan.log_directory "k".data)
      = some (timestampedLine t0 "msg".data)
    ∧ alistFind (log_event noFaults stOrphan fsOrphan t0 t0 "k".data "msg".data
          (some "  1.2345".data)).2.1.inodeData 0
        = some (([] : PyStr)
            ++ timestampedLine t0 ("[".data ++ "  1.2345".data ++ "s] ".data ++ "msg".data))
    ∧ timestampedLine t0 "msg".data
        ≠ timestampedLine t0 ("[".data ++ "  1.2345".data ++ "s] ".data ++ "msg".data) :=
  elapsed_annotation_lost_on_recreate stOrphan fsOrphan t0 t0 "k".data "msg".data
    "  1.2345".data ⟨0, 0⟩ [] rfl rfl rfl (by decide)
